import Mathlib

set_option autoImplicit false

/-!
# dagobah: the request handlers of `commands/server.go`

A shallow embedding of `Offset`, `four04`, `homeRoute`, `postRoute`,
`searchRoute`, `channelRoute` and `ProperHtml`.

* Go's `int` is the 64-bit two's complement integer: a value is an `Int`
  and every arithmetic result is wrapped by `wrapInt`.
* Go strings are modelled as Lean strings (sequences of code points);
  `len` is the UTF-8 byte length.
* The content store (mgo), the configuration (viper) and the integer
  parser behind `cast.ToInt` are collaborators outside the file: they are
  fields of `Env`, and every theorem holds for every `Env`.
* A handler returns the store operations it issued, in order, together
  with the response it rendered.
-/

namespace Dagobah

/-! ## Machine integers -/

/-- Smallest Go `int` (64-bit platform). -/
def minInt : Int := -9223372036854775808

/-- Largest Go `int` (64-bit platform). -/
def maxInt : Int := 9223372036854775807

/-- Two's complement wrap-around of a mathematical integer into a Go `int`. -/
def wrapInt (x : Int) : Int := (x + 9223372036854775808) % 18446744073709551616 - 9223372036854775808

/-- Go constant `pLimit`. -/
def pLimit : Int := 10

/-! ## Data model -/

/-- Modelled from the spec: the record type `Itm` is declared outside
`server.go`; the spec's Item has a key, a title, a channel key, a
publication date and a body. Its Go zero value has every field empty. -/
structure Itm where
  Key : String
  Title : String
  ChannelKey : String
  Date : Int
  Content : String
deriving DecidableEq, Repr

/-- Modelled from the spec: the record type `Chnl` is declared outside
`server.go`; the spec's Channel has a key and a title. -/
structure Chnl where
  Key : String
  Title : String
deriving DecidableEq, Repr

/-- Go zero value of `Itm` (what `var post Itm` holds). -/
def Itm.zero : Itm := ⟨"", "", "", 0, ""⟩

/-- Go zero value of `Chnl` (what `var currentChannel Chnl` holds). -/
def Chnl.zero : Chnl := ⟨"", ""⟩

/-- The `bson.M` filters that the handlers pass to `Find`. -/
inductive Filter where
  | all
  | key (k : String)
  | channelkey (k : String)
  | text (search : String)
deriving DecidableEq, Repr

/-- An mgo query on the items collection as built by the handlers:
`Find(filter)` then optional `Skip`, `Sort` and `Limit`. -/
structure Query where
  filter : Filter
  skip : Option Int
  sort : Option String
  limit : Option Int
deriving DecidableEq, Repr

/-- A store operation issued by a handler. -/
inductive StoreOp where
  | itemsAll (q : Query)
  | itemsOne (q : Query)
  | allChannels
  | channelOne (k : String)
deriving DecidableEq, Repr

/-- The collaborators a handler reads: the store, the configuration and
the integer parser used by `cast.ToInt`.

* `parseInt s` is `strconv.ParseInt(s, 0, 0)`: `none` when it returns an
  error, `some n` with `n` a Go `int` otherwise.
* `itemsAll q` is the slice `posts` after `q.All(&posts)`.
* `itemsOne q` is the record written by `q.One(&post)`, `none` when `One`
  fails and leaves `post` untouched.
* `allChannels` is the result of `AllChannels()`.
* `channelOne k` is the outcome of
  `Channels().Find(bson.M{"key": k}).One(&currentChannel)`: the record, or
  the text of the error, in which case `currentChannel` is untouched.
* `title` is `viper.GetString("title")`. -/
structure Env where
  parseInt : String → Option Int
  itemsAll : Query → List Itm
  itemsOne : Query → Option Itm
  allChannels : List Chnl
  channelOne : String → Except String Chnl
  title : String

/-- The part of `*gin.Context` the handlers read: the captured route
parameter (`c.Params.ByName`), the form value `p` when the request has one,
and the `X-Requested-With` header when the request has one. -/
structure Context where
  param : String
  p : Option String
  xRequestedWith : Option String

/-- Go `c.Req.FormValue("p")`: the empty string when the parameter is absent. -/
def FormValue (c : Context) : String := c.p.getD ""

/-- Go `c.Req.Header.Get("X-Requested-With")`: the empty string when the header
is absent. -/
def HeaderGet (c : Context) : String := c.xRequestedWith.getD ""

/-- Go `cast.ToInt` on a string: the parsed value, and 0 when parsing fails. -/
def castToInt (env : Env) (s : String) : Int :=
  match env.parseInt s with
  | some v => v
  | none => 0

/-- Handler helper `Offset`: `curPage := cast.ToInt(p) - 1`, 0 when `curPage < 1`, else
`pLimit * curPage`, in Go `int` arithmetic. -/
def Offset (env : Env) (c : Context) : Int :=
  let curPage := wrapInt (castToInt env (FormValue c) - 1)
  if curPage < 1 then 0 else wrapInt (pLimit * curPage)

/-! ## Responses -/

/-- The `gin.H` bag handed to the renderer; a key that the handler does not
set is `none`. -/
structure H where
  title : Option String
  post : Option Itm
  items : Option (List Itm)
  channels : Option (List Chnl)
  header : Option String
  message : Option String
deriving DecidableEq, Repr

/-- A call `c.HTML(status, name, obj)`. -/
structure Response where
  status : Nat
  name : String
  obj : H
deriving DecidableEq, Repr

/-- Go `len(s)`: the number of bytes of the string. -/
def len (s : String) : Nat := s.utf8ByteSize

/-- Go `s[1:]` on a captured wildcard parameter. The parameter starts with
the one-byte separator `/`, so dropping the first byte drops the first
character. -/
def sliceFrom1 (s : String) : String := String.mk (s.data.drop 1)

/-- Lower-case mapping of one rune as far as it can reach an ASCII letter:
`A`..`Z`, U+0130 and U+212A are the only runes that `unicode.ToLower` sends
to an ASCII letter; every other rune stays outside ASCII or is unchanged. -/
def toLowerRune (c : Char) : Char :=
  if c = Char.ofNat 0x130 then 'i'
  else if c = Char.ofNat 0x212A then 'k'
  else c.toLower

/-- Go `strings.ToLower`, compared here only against an ASCII word. -/
def stringsToLower (s : String) : String := String.mk (s.data.map toLowerRune)

/-- The test `strings.ToLower(c.Req.Header.Get("X-Requested-With")) == "xmlhttprequest"`. -/
def isXHR (c : Context) : Bool :=
  decide (stringsToLower (HeaderGet c) = "xmlhttprequest")

/-- Handler helper `four04`: status 404 on `home.html` with the message and the configured
site title. -/
def four04 (env : Env) (message : String) : Response :=
  ⟨404, "home.html", ⟨some env.title, none, none, none, none, some message⟩⟩

/-! ## Route handlers -/

/-- Handler `postRoute`: a parameter shorter than 2 bytes is rejected;
otherwise the ten most recent items, the item with the key and the channel
list are fetched and the page is rendered with status 200. -/
def postRoute (env : Env) (c : Context) : List StoreOp × Response :=
  let key := c.param
  if len key < 2 then ([], four04 env "Invalid Channel")
  else
    let key := sliceFrom1 key
    let qAll : Query := ⟨Filter.all, none, some "-date", some pLimit⟩
    let posts := env.itemsAll qAll
    let qOne : Query := ⟨Filter.key key, none, some "-date", none⟩
    let post := (env.itemsOne qOne).getD Itm.zero
    let channels := env.allChannels
    let ops := [StoreOp.itemsAll qAll, StoreOp.itemsOne qOne, StoreOp.allChannels]
    let obj : H := ⟨some post.Title, some post, some posts, some channels, none, none⟩
    if isXHR c then (ops, ⟨200, "main.html", obj⟩)
    else (ops, ⟨200, "home.html", obj⟩)

/-- Handler `homeRoute`: the channel list and the current page of items are
fetched; an empty page is a 404, otherwise the page is rendered. -/
def homeRoute (env : Env) (c : Context) : List StoreOp × Response :=
  let channels := env.allChannels
  let q : Query := ⟨Filter.all, some (Offset env c), some "-date", some pLimit⟩
  let posts := env.itemsAll q
  let ops := [StoreOp.allChannels, StoreOp.itemsAll q]
  match posts with
  | [] => (ops, four04 env "No Articles")
  | post0 :: _ =>
    let obj : H := ⟨some env.title, some post0, some posts, some channels, none, none⟩
    if isXHR c then (ops, ⟨200, "items.html", obj⟩)
    else (ops, ⟨200, "home.html", obj⟩)

/-- Handler `searchRoute`: a query shorter than 2 bytes is rejected; the
channel list and the current page of the text search are fetched; an empty
page is a 404, otherwise the page is rendered. -/
def searchRoute (env : Env) (c : Context) : List StoreOp × Response :=
  let q := c.param
  if len q < 2 then ([], four04 env "Query is too short. Please try a longer query.")
  else
    let q := sliceFrom1 q
    let channels := env.allChannels
    let query : Query := ⟨Filter.text q, some (Offset env c), none, some pLimit⟩
    let posts := env.itemsAll query
    let ops := [StoreOp.allChannels, StoreOp.itemsAll query]
    match posts with
    | [] => (ops, four04 env ("No Articles for query '" ++ q ++ "'"))
    | post0 :: _ =>
      let obj : H := ⟨some q, some post0, some posts, some channels, some q, none⟩
      if isXHR c then (ops, ⟨200, "items.html", obj⟩)
      else (ops, ⟨200, "home.html", obj⟩)

/-- Handler `channelRoute`: a key shorter than 2 bytes is rejected; the
current page of the channel's items is fetched and an empty page is a 404;
then the channel list and the channel are fetched, the error "not found" is a
404, and any other outcome renders the page. -/
def channelRoute (env : Env) (c : Context) : List StoreOp × Response :=
  let key := c.param
  if len key < 2 then ([], four04 env "Channel Not Found")
  else
    let key := sliceFrom1 key
    let query : Query := ⟨Filter.channelkey key, some (Offset env c), some "-date", some pLimit⟩
    let posts := env.itemsAll query
    match posts with
    | [] => ([StoreOp.itemsAll query], four04 env "No Articles")
    | post0 :: _ =>
      let channels := env.allChannels
      let ops := [StoreOp.itemsAll query, StoreOp.allChannels, StoreOp.channelOne key]
      let render := fun (currentChannel : Chnl) =>
        let obj : H := ⟨some currentChannel.Title, some post0, some posts, some channels,
          some currentChannel.Title, none⟩
        if isXHR c then (ops, (⟨200, "items.html", obj⟩ : Response))
        else (ops, ⟨200, "home.html", obj⟩)
      match env.channelOne key with
      | Except.error err =>
        if err = "not found" then (ops, four04 env "Channel not found")
        else render Chnl.zero
      | Except.ok currentChannel => render currentChannel

/-! ## Routing -/

/-- The four content routes registered by `Server`. -/
inductive Route where
  | home
  | post
  | search
  | channel
deriving DecidableEq, Repr

/-- The handler registered for a route. -/
def handler : Route → Env → Context → List StoreOp × Response
  | Route.home => homeRoute
  | Route.post => postRoute
  | Route.search => searchRoute
  | Route.channel => channelRoute

/-- The catch-all parameter of a pattern `pfx/*name` on a request path: the
rest of the path from the separator after `pfx` on, separator included
(httprouter's catch-all rule). -/
def catchAll (pfx path : String) : Option String :=
  if (pfx.data ++ ['/']).isPrefixOf path.data then
    some (String.mk (path.data.drop pfx.data.length))
  else none

/-- The content routes of `Server`: `/`, `/post/*key`, `/search/*query` and
`/channel/*key`. A path served by another route (`/ping`, `/static/...`) or
by none is `none`. -/
def Server (env : Env) (path : String) (p xrw : Option String) :
    Option (List StoreOp × Response) :=
  if path = "/" then some (homeRoute env ⟨"", p, xrw⟩)
  else match catchAll "/post" path with
    | some key => some (postRoute env ⟨key, p, xrw⟩)
    | none => match catchAll "/search" path with
      | some query => some (searchRoute env ⟨query, p, xrw⟩)
      | none => match catchAll "/channel" path with
        | some key => some (channelRoute env ⟨key, p, xrw⟩)
        | none => none

/-! ## A concrete parser and an empty store -/

/-- Value of a decimal digit. -/
def digitVal (c : Char) : Option Nat :=
  if '0' ≤ c ∧ c ≤ '9' then some (c.toNat - 48) else none

/-- Accumulate decimal digits, most significant first. -/
def parseDigits : List Char → Nat → Option Nat
  | [], acc => some acc
  | c :: cs, acc =>
    match digitVal c with
    | some d => parseDigits cs (10 * acc + d)
    | none => none

/-- The decimal fragment of `strconv.ParseInt(s, 0, 0)`: an optional sign
followed by `0` or by decimal digits that do not start with `0`, accepted
when the value is a 64-bit `int`. Numerals in the other syntaxes of base 0
(prefixes `0x`, `0o`, `0b`, a leading `0`, underscores) are outside the
fragment and are answered `none` here. -/
def parseDecimal (s : String) : Option Int :=
  let unsigned := fun (ds : List Char) =>
    match ds with
    | [] => none
    | ['0'] => some 0
    | '0' :: _ => none
    | _ => parseDigits ds 0
  match s.data with
  | [] => none
  | '-' :: ds =>
    match unsigned ds with
    | some n => if n ≤ 9223372036854775808 then some (-(n : Int)) else none
    | none => none
  | '+' :: ds =>
    match unsigned ds with
    | some n => if n < 9223372036854775808 then some (n : Int) else none
    | none => none
  | ds =>
    match unsigned ds with
    | some n => if n < 9223372036854775808 then some (n : Int) else none
    | none => none

/-- A store with no record at all, the decimal parser and title `t`. -/
def emptyEnv (t : String) : Env :=
  ⟨parseDecimal, fun _ => [], fun _ => none, [], fun _ => Except.error "not found", t⟩

/-! ## A sample store -/

/-- The window of a result list selected by a query's `Skip` and `Limit`. -/
def page (q : Query) (l : List Itm) : List Itm :=
  let skipped := match q.skip with
    | some k => l.drop k.toNat
    | none => l
  match q.limit with
  | some n => skipped.take n.toNat
  | none => skipped

/-- A store with two items, the channel `go`, and a channel lookup that
answers a connection error for the key `db`; list queries honour `Skip` and
`Limit`. -/
def sampleEnv : Env :=
  ⟨parseDecimal,
   fun q => page q (match q.filter with
     | Filter.all => [⟨"a", "First", "go", 2, "one"⟩, ⟨"b", "Second", "db", 1, "two"⟩]
     | Filter.channelkey k => if k = "go" then [⟨"a", "First", "go", 2, "one"⟩]
         else if k = "db" then [⟨"b", "Second", "db", 1, "two"⟩] else []
     | Filter.text t => if t = "one" then [⟨"a", "First", "go", 2, "one"⟩] else []
     | Filter.key _ => []),
   fun q => match q.filter with
     | Filter.key k => if k = "a" then some ⟨"a", "First", "go", 2, "one"⟩ else none
     | _ => none,
   [⟨"go", "Go"⟩],
   fun k => if k = "go" then Except.ok ⟨"go", "Go"⟩
     else if k = "db" then Except.error "connection lost" else Except.error "not found",
   "Dagobah"⟩

/-! ## Templates and letter case -/

/-- The fragment template of a route. -/
def fragment : Route → String
  | Route.post => "main.html"
  | _ => "items.html"

/-- A spelling of the word `s` in another letter case: the characters marked
`true` are upper-cased. -/
def withCase : List Bool → List Char → List Char
  | _, [] => []
  | [], cs => cs
  | b :: bs, c :: cs => (if b then c.toUpper else c) :: withCase bs cs

/-! ## HTML escaping and unescaping

`ProperHtml` calls `template.HTMLEscapeString` and `html.UnescapeString` of
the Go standard library. Both work on bytes and only ever inspect or produce
ASCII bytes and whole encoded runes, so on text they are functions of the
sequence of code points, which is how they are written here. -/

/-- Rune 0, the NUL character. -/
def nul : Char := Char.ofNat 0

/-- The replacement character U+FFFD. -/
def runeError : Char := Char.ofNat 0xFFFD

/-- The double quote. -/
def quot : Char := Char.ofNat 34

/-- The apostrophe. -/
def apos : Char := Char.ofNat 39

/-- What `text/template.HTMLEscape` writes for one character: NUL becomes
U+FFFD, the five characters `"`, apostrophe, `&`, `<`, `>` become `&#34;`,
`&#39;`, `&amp;`, `&lt;`, `&gt;`, and any other character is copied. -/
def escapeChar (c : Char) : List Char :=
  if c = nul then [runeError]
  else if c = quot then ['&', '#', '3', '4', ';']
  else if c = apos then ['&', '#', '3', '9', ';']
  else if c = '&' then ['&', 'a', 'm', 'p', ';']
  else if c = '<' then ['&', 'l', 't', ';']
  else if c = '>' then ['&', 'g', 't', ';']
  else [c]

/-- Go `template.HTMLEscapeString` on the characters of a text. -/
def htmlEscape : List Char → List Char
  | [] => []
  | c :: cs => escapeChar c ++ htmlEscape cs

/-- Go `template.HTMLEscapeString`. -/
def HTMLEscapeString (s : String) : String := String.mk (htmlEscape s.data)

/-- The part of Go's entity tables that is not spelled out in `entityOf`:
`entity` maps a name to its rune and `entity2` to its two runes, rune 0
standing for a name that the map does not have (a Go map's zero value). -/
structure Entities where
  entity : String → Char
  entity2 : String → Char × Char

/-- Go's `entity[name]`. The entries `amp;`, `lt;` and `gt;` are spelled out;
every other name is looked up in the table `T`. -/
def entityOf (T : Entities) (name : String) : Char :=
  if name = "amp;" then '&'
  else if name = "lt;" then '<'
  else if name = "gt;" then '>'
  else T.entity name

/-- Go constant `longestEntityWithoutSemicolon`. -/
def longestEntityWithoutSemicolon : Nat := 6

/-- Go's `replacementTable`: the runes that replace the numeric references
0x80..0x9F (Windows-1252). -/
def replacementTable : List Nat :=
  [0x20AC, 0x0081, 0x201A, 0x0192, 0x201E, 0x2026, 0x2020, 0x2021,
   0x02C6, 0x2030, 0x0160, 0x2039, 0x0152, 0x008D, 0x017D, 0x008F,
   0x0090, 0x2018, 0x2019, 0x201C, 0x201D, 0x2022, 0x2013, 0x2014,
   0x02DC, 0x2122, 0x0161, 0x203A, 0x0153, 0x009D, 0x017E, 0x0178]

/-- Two's complement wrap-around into a Go `rune` (`int32`). -/
def wrapRune (x : Int) : Int := (x + 2147483648) % 4294967296 - 2147483648

/-- The rune written for a numeric character reference of value `x`:
Windows-1252 replacement for 0x80..0x9F, U+FFFD for 0, surrogates and
values above 0x10FFFF, and (by `utf8.EncodeRune`) for a negative value. -/
def numericRune (x : Int) : Char :=
  if 0x80 ≤ x ∧ x ≤ 0x9F then Char.ofNat (replacementTable.getD (x - 0x80).toNat 0xFFFD)
  else if x = 0 ∨ (0xD800 ≤ x ∧ x ≤ 0xDFFF) ∨ x > 0x10FFFF then runeError
  else if x < 0 then runeError
  else Char.ofNat x.toNat

/-- Value of the digit `c` in a numeric reference, hexadecimal or decimal. -/
def digitOf (hex : Bool) (c : Char) : Option Int :=
  if '0' ≤ c ∧ c ≤ '9' then some ((c.toNat : Int) - 48)
  else if hex = true ∧ 'a' ≤ c ∧ c ≤ 'f' then some ((c.toNat : Int) - 97 + 10)
  else if hex = true ∧ 'A' ≤ c ∧ c ≤ 'F' then some ((c.toNat : Int) - 65 + 10)
  else none

/-- The digit loop of `unescapeEntity` from index `i` on: accumulates the
value in a `rune`, stops at the first character that is not a digit and
steps over it when it is a semicolon. Returns the value and the index after
the reference. -/
def scanNumber (hex : Bool) : List Char → Int → Nat → Int × Nat
  | [], x, i => (x, i)
  | c :: cs, x, i =>
    match digitOf hex c with
    | some d => scanNumber hex cs (wrapRune ((if hex then 16 else 10) * x + d)) (i + 1)
    | none => if c = ';' then (x, i + 1) else (x, i)

/-- The letters and digits that may form an entity name. -/
def isAlnum (c : Char) : Bool :=
  decide (('a' ≤ c ∧ c ≤ 'z') ∨ ('A' ≤ c ∧ c ≤ 'Z') ∨ ('0' ≤ c ∧ c ≤ '9'))

/-- The name loop of `unescapeEntity` from index `i` on: consumes letters and
digits and one closing semicolon. Returns the index after the name. -/
def scanName : List Char → Nat → Nat
  | [], i => i
  | c :: cs, i => if isAlnum c then scanName cs (i + 1) else if c = ';' then i + 1 else i

/-- The loop `for j := maxLen; j > 1; j--` of `unescapeEntity`: the longest
prefix of the name, of length at most `j`, that is an entity. -/
def prefixSearch (T : Entities) (name : List Char) : Nat → Option (Char × Nat)
  | 0 => none
  | j + 1 =>
    if 1 < j + 1 ∧ entityOf T (String.mk (name.take (j + 1))) ≠ nul then
      some (entityOf T (String.mk (name.take (j + 1))), j + 1)
    else prefixSearch T name j

/-- Go `unescapeEntity(b, dst, src, false)` on `s = b[src:]`, which starts with
`&`: the characters written and the number of characters of `s` consumed. -/
def unescapeEntity (T : Entities) (s : List Char) : List Char × Nat :=
  if s.length ≤ 1 then (s.take 1, 1)
  else if s.getD 1 nul = '#' then
    if s.length ≤ 3 then (s.take 1, 1)
    else
      let hex := decide (s.getD 2 nul = 'x' ∨ s.getD 2 nul = 'X')
      let start := if hex then 3 else 2
      let r := scanNumber hex (s.drop start) 0 start
      if r.2 ≤ 3 then (s.take 1, 1)
      else ([numericRune r.1], r.2)
  else
    let i := scanName (s.drop 1) 1
    let entityName := (s.take i).drop 1
    if entityName = [] then (s.take i, i)
    else if entityOf T (String.mk entityName) ≠ nul then
      ([entityOf T (String.mk entityName)], i)
    else if (T.entity2 (String.mk entityName)).1 ≠ nul then
      ([(T.entity2 (String.mk entityName)).1, (T.entity2 (String.mk entityName)).2], i)
    else
      match prefixSearch T entityName (min (entityName.length - 1) longestEntityWithoutSemicolon) with
      | some (x, j) => ([x], j + 1)
      | none => (s.take i, i)

/-- The loop of `html.UnescapeString`: characters other than `&` are copied,
and at each `&` the reference is decoded by `unescapeEntity`. Every step
consumes at least one character, so a fuel equal to the length of the text is
never exhausted. -/
def unescapeLoop (T : Entities) : Nat → List Char → List Char
  | 0, s => s
  | _ + 1, [] => []
  | fuel + 1, c :: cs =>
    if c = '&' then
      (unescapeEntity T (c :: cs)).1 ++
        unescapeLoop T fuel ((c :: cs).drop (unescapeEntity T (c :: cs)).2)
    else c :: unescapeLoop T fuel cs

/-- Go `html.UnescapeString` on the characters of a text. -/
def unescapeChars (T : Entities) (s : List Char) : List Char := unescapeLoop T s.length s

/-- Go `html.UnescapeString`. -/
def UnescapeString (T : Entities) (s : String) : String := String.mk (unescapeChars T s.data)

/-- Whether `sub` occurs in the character sequence. -/
def hasInfix (sub : List Char) : List Char → Bool
  | [] => sub.isEmpty
  | c :: cs => sub.isPrefixOf (c :: cs) || hasInfix sub cs

/-- Go `strings.Contains(s, substr)`. -/
def stringsContains (s substr : String) : Bool := hasInfix substr.data s.data

/-- Template function `ProperHtml`: the text is unescaped once when it contains one of the two
markers, and then escaped and unescaped. -/
def ProperHtml (T : Entities) (text : String) : String :=
  let text :=
    if stringsContains text "content:encoded>" || stringsContains text "content/:encoded>" then
      UnescapeString T text
    else text
  UnescapeString T (HTMLEscapeString text)

/-- What escaping followed by unescaping does to one character: NUL comes
back as U+FFFD, every other character as itself. -/
def fixNul (c : Char) : Char := if c = nul then runeError else c

/-- A small entity table: `quot;`, `nbsp;` and the legacy name `copy`. -/
def sampleEntities : Entities :=
  ⟨fun name => if name = "quot;" then quot else if name = "nbsp;" then Char.ofNat 0xA0
     else if name = "copy" then Char.ofNat 0xA9 else nul,
   fun _ => (nul, nul)⟩

/-! ## Auxiliary measure -/

/-- The number of characters before the first `&`. -/
def ampFree (t : List Char) : Nat := (t.takeWhile (fun c => c != '&')).length

/-! # Theorems -/

/-! ## Pagination -/

theorem wrapInt_of_range (x : Int) (h1 : minInt ≤ x) (h2 : x ≤ maxInt) : wrapInt x = x := by
  unfold wrapInt minInt maxInt at *
  omega

/-- C2, as stated, fails: the page parameter `9223372036854775807` parses to
the largest `int`, which is at least 2, and `pLimit * curPage` wraps around:
`Offset` returns -20, which is negative and is not `(p - 1) * 10`. -/
theorem Offset_maxInt_counterexample :
    (emptyEnv "").parseInt "9223372036854775807" = some maxInt ∧ 2 ≤ maxInt ∧
    Offset (emptyEnv "") ⟨"", some "9223372036854775807", none⟩ = -20 ∧
    Offset (emptyEnv "") ⟨"", some "9223372036854775807", none⟩ ≠ (maxInt - 1) * 10 ∧
    ¬ 0 ≤ Offset (emptyEnv "") ⟨"", some "9223372036854775807", none⟩ := by
  decide

/-- C2 (amended): for every page parameter that parses to `n` with
`2 ≤ n ≤ 922337203685477581`, that is, while `(n - 1) * 10` is still an
`int`, `Offset` returns exactly `(n - 1) * 10`, a non-negative multiple of
`pLimit = 10`. -/
theorem Offset_later_page (env : Env) (c : Context) (n : Int)
    (hn : env.parseInt (FormValue c) = some n) (h2 : 2 ≤ n)
    (hmax : n ≤ 922337203685477581) :
    Offset env c = (n - 1) * 10 ∧ 0 ≤ Offset env c ∧ Offset env c % pLimit = 0 ∧ pLimit = 10 := by
  have e : Offset env c = (n - 1) * 10 := by
    unfold Offset
    simp only [castToInt, hn]
    rw [wrapInt_of_range (n - 1) (by unfold minInt; omega) (by unfold maxInt; omega)]
    rw [if_neg (by omega)]
    rw [wrapInt_of_range _ (by unfold minInt pLimit; omega) (by unfold maxInt pLimit; omega)]
    unfold pLimit
    omega
  rw [e]
  unfold pLimit
  refine ⟨rfl, by omega, by omega, rfl⟩

theorem Offset_later_page_witness :
    Offset (emptyEnv "") ⟨"", some "3", none⟩ = (3 - 1) * 10 ∧
    0 ≤ Offset (emptyEnv "") ⟨"", some "3", none⟩ ∧
    Offset (emptyEnv "") ⟨"", some "3", none⟩ % pLimit = 0 ∧ pLimit = 10 :=
  Offset_later_page (emptyEnv "") ⟨"", some "3", none⟩ 3 (by decide) (by decide) (by decide)

/-! ## Rejection of short parameters -/

/-- C3: for every captured parameter of length below 2, `postRoute`,
`searchRoute` and `channelRoute` issue no store operation and answer status
404 on `home.html` with the messages "Invalid Channel", "Query is too short.
Please try a longer query." and "Channel Not Found". -/
theorem short_param_rejected (env : Env) (c : Context) (h : len c.param < 2) :
    postRoute env c =
      ([], ⟨404, "home.html", ⟨some env.title, none, none, none, none, some "Invalid Channel"⟩⟩) ∧
    searchRoute env c =
      ([], ⟨404, "home.html", ⟨some env.title, none, none, none, none,
        some "Query is too short. Please try a longer query."⟩⟩) ∧
    channelRoute env c =
      ([], ⟨404, "home.html", ⟨some env.title, none, none, none, none, some "Channel Not Found"⟩⟩) := by
  refine ⟨?_, ?_, ?_⟩
  · simp [postRoute, h, four04]
  · simp [searchRoute, h, four04]
  · simp [channelRoute, h, four04]

theorem short_param_rejected_witness :
    len "/" < 2 ∧
    postRoute (emptyEnv "T") ⟨"/", none, none⟩ =
      ([], ⟨404, "home.html", ⟨some "T", none, none, none, none, some "Invalid Channel"⟩⟩) ∧
    searchRoute (emptyEnv "T") ⟨"/", none, none⟩ =
      ([], ⟨404, "home.html", ⟨some "T", none, none, none, none,
        some "Query is too short. Please try a longer query."⟩⟩) ∧
    channelRoute (emptyEnv "T") ⟨"/", none, none⟩ =
      ([], ⟨404, "home.html", ⟨some "T", none, none, none, none, some "Channel Not Found"⟩⟩) :=
  ⟨by decide, short_param_rejected (emptyEnv "T") ⟨"/", none, none⟩ (by decide)⟩

/-! ## Empty results -/

/-- C4, as stated, fails on its example: for the request `/search/xgolangx`
the catch-all parameter is `/xgolangx`, the separator removed by `q[1:]` is
the `/`, and with no matching item the message is
"No Articles for query 'xgolangx'", not "No Articles for query 'golangx'". -/
theorem search_message_counterexample :
    catchAll "/search" "/search/xgolangx" = some "/xgolangx" ∧
    (Server (emptyEnv "T") "/search/xgolangx" none none).map (fun r => r.2) =
      some (four04 (emptyEnv "T") "No Articles for query 'xgolangx'") ∧
    (Server (emptyEnv "T") "/search/xgolangx" none none).map (fun r => r.2.obj.message) ≠
      some (some "No Articles for query 'golangx'") := by
  decide

/-- C4 (amended): for `homeRoute`, and for `searchRoute` and `channelRoute`
with a parameter of length at least 2, the paginated item fetch returns no
item if and only if the response is the "no articles" response: status 404
on `home.html`, without an items list, with message "No Articles" for home
and channel and "No Articles for query '<q>'" for search, `<q>` being the
parameter without its leading separator. For the request `/search/xgolangx`
with no match the message is "No Articles for query 'xgolangx'". -/
theorem no_articles_iff (env : Env) (c : Context) :
    (∀ m, four04 env m = ⟨404, "home.html", ⟨some env.title, none, none, none, none, some m⟩⟩) ∧
    (env.itemsAll ⟨Filter.all, some (Offset env c), some "-date", some pLimit⟩ = [] ↔
      (homeRoute env c).2 = four04 env "No Articles") ∧
    (2 ≤ len c.param →
      (env.itemsAll ⟨Filter.text (sliceFrom1 c.param), some (Offset env c), none, some pLimit⟩ = [] ↔
        (searchRoute env c).2 =
          four04 env ("No Articles for query '" ++ sliceFrom1 c.param ++ "'"))) ∧
    (2 ≤ len c.param →
      (env.itemsAll ⟨Filter.channelkey (sliceFrom1 c.param), some (Offset env c), some "-date",
          some pLimit⟩ = [] ↔
        (channelRoute env c).2 = four04 env "No Articles")) ∧
    (env.itemsAll ⟨Filter.text "xgolangx", some (Offset env ⟨"/xgolangx", c.p, c.xRequestedWith⟩),
        none, some pLimit⟩ = [] →
      (Server env "/search/xgolangx" c.p c.xRequestedWith).map (fun r => r.2) =
        some (four04 env "No Articles for query 'xgolangx'")) := by
  refine ⟨fun _ => rfl, ?_, ?_, ?_, ?_⟩
  · unfold homeRoute
    simp only []
    cases hq : env.itemsAll ⟨Filter.all, some (Offset env c), some "-date", some pLimit⟩ with
    | nil => simp
    | cons a l => by_cases hx : isXHR c <;> simp [hx, four04]
  · intro h
    have h2 : ¬ len c.param < 2 := by omega
    unfold searchRoute
    simp only [h2, if_false]
    cases hq : env.itemsAll ⟨Filter.text (sliceFrom1 c.param), some (Offset env c), none,
        some pLimit⟩ with
    | nil => simp
    | cons a l => by_cases hx : isXHR c <;> simp [hx, four04]
  · intro h
    have h2 : ¬ len c.param < 2 := by omega
    unfold channelRoute
    simp only [h2, if_false]
    cases hq : env.itemsAll ⟨Filter.channelkey (sliceFrom1 c.param), some (Offset env c),
        some "-date", some pLimit⟩ with
    | nil => simp
    | cons a l =>
      cases hc : env.channelOne (sliceFrom1 c.param) with
      | error e =>
        by_cases he : e = "not found"
        · simp [he, four04]
        · by_cases hx : isXHR c <;> simp [he, hx, four04]
      | ok ch => by_cases hx : isXHR c <;> simp [hx, four04]
  · intro h
    have e1 : Server env "/search/xgolangx" c.p c.xRequestedWith =
        some (searchRoute env ⟨"/xgolangx", c.p, c.xRequestedWith⟩) := by
      simp [Server, catchAll]
    have e2 : sliceFrom1 "/xgolangx" = "xgolangx" := by decide
    have e3 : ¬ len "/xgolangx" < 2 := by decide
    rw [e1]
    unfold searchRoute
    simp only [e2, e3, if_false, h, Option.map_some']
    rfl

theorem no_articles_iff_witness :
    2 ≤ len "/go" ∧
    ((emptyEnv "T").itemsAll ⟨Filter.text (sliceFrom1 "/go"),
        some (Offset (emptyEnv "T") ⟨"/go", none, none⟩), none, some pLimit⟩ = [] ↔
      (searchRoute (emptyEnv "T") ⟨"/go", none, none⟩).2 =
        four04 (emptyEnv "T") ("No Articles for query '" ++ sliceFrom1 "/go" ++ "'")) ∧
    ((emptyEnv "T").itemsAll ⟨Filter.channelkey (sliceFrom1 "/go"),
        some (Offset (emptyEnv "T") ⟨"/go", none, none⟩), some "-date", some pLimit⟩ = [] ↔
      (channelRoute (emptyEnv "T") ⟨"/go", none, none⟩).2 = four04 (emptyEnv "T") "No Articles") ∧
    (Server (emptyEnv "T") "/search/xgolangx" none none).map (fun r => r.2) =
      some (four04 (emptyEnv "T") "No Articles for query 'xgolangx'") :=
  ⟨by decide,
   (no_articles_iff (emptyEnv "T") ⟨"/go", none, none⟩).2.2.1 (by decide),
   (no_articles_iff (emptyEnv "T") ⟨"/go", none, none⟩).2.2.2.1 (by decide),
   (no_articles_iff (emptyEnv "T") ⟨"/go", none, none⟩).2.2.2.2 rfl⟩

/-! ## Channel lookup -/

/-- C5: for `channelRoute` with a key of length at least 2. When the item
fetch returns an item, the response is 404 "Channel not found" exactly when
the channel lookup fails with the error "not found"; a successful lookup
gives status 200 with the channel's title and header, and any other error
gives status 200 with the zero channel, so an empty title and header. When
the item fetch returns nothing, the only store operation is that fetch (no
channel lookup) and the message is "No Articles", whatever the channel
lookup would answer. -/
theorem channel_lookup (env : Env) (c : Context) (h : 2 ≤ len c.param) :
    (env.itemsAll ⟨Filter.channelkey (sliceFrom1 c.param), some (Offset env c), some "-date",
        some pLimit⟩ ≠ [] →
      (((channelRoute env c).2.status = 404 ∧
          (channelRoute env c).2.obj.message = some "Channel not found") ↔
        env.channelOne (sliceFrom1 c.param) = Except.error "not found") ∧
      (∀ ch, env.channelOne (sliceFrom1 c.param) = Except.ok ch →
        (channelRoute env c).2.status = 200 ∧
        (channelRoute env c).2.obj.title = some ch.Title ∧
        (channelRoute env c).2.obj.header = some ch.Title) ∧
      (∀ e, env.channelOne (sliceFrom1 c.param) = Except.error e → e ≠ "not found" →
        (channelRoute env c).2.status = 200 ∧
        (channelRoute env c).2.obj.title = some "" ∧
        (channelRoute env c).2.obj.header = some "")) ∧
    (env.itemsAll ⟨Filter.channelkey (sliceFrom1 c.param), some (Offset env c), some "-date",
        some pLimit⟩ = [] →
      channelRoute env c =
        ([StoreOp.itemsAll ⟨Filter.channelkey (sliceFrom1 c.param), some (Offset env c),
            some "-date", some pLimit⟩],
          ⟨404, "home.html", ⟨some env.title, none, none, none, none, some "No Articles"⟩⟩)) := by
  have h2 : ¬ len c.param < 2 := by omega
  constructor
  · intro hne
    unfold channelRoute
    simp only [h2, if_false]
    cases hq : env.itemsAll ⟨Filter.channelkey (sliceFrom1 c.param), some (Offset env c),
        some "-date", some pLimit⟩ with
    | nil => exact absurd hq hne
    | cons a l =>
      cases hc : env.channelOne (sliceFrom1 c.param) with
      | error e =>
        by_cases he : e = "not found"
        · simp [he, four04]
        · by_cases hx : isXHR c <;> simp [he, hx, four04, Chnl.zero]
      | ok ch => by_cases hx : isXHR c <;> simp [hx, four04]
  · intro hq
    unfold channelRoute
    simp only [h2, if_false, hq]
    rfl

theorem channel_lookup_witness :
    2 ≤ len "/db" ∧
    (channelRoute sampleEnv ⟨"/db", none, none⟩).2.status = 200 ∧
    (channelRoute sampleEnv ⟨"/db", none, none⟩).2.obj.title = some "" ∧
    (channelRoute sampleEnv ⟨"/db", none, none⟩).2.obj.header = some "" :=
  ⟨by decide,
   ((channel_lookup sampleEnv ⟨"/db", none, none⟩ (by decide)).1 (by decide)).2.2
     "connection lost" rfl (by decide)⟩

/-! ## Content negotiation -/

theorem toLower_withCase (s : List Char)
    (hs : ∀ ch ∈ s, toLowerRune ch.toUpper = ch ∧ toLowerRune ch = ch) (mask : List Bool) :
    (withCase mask s).map toLowerRune = s := by
  induction s generalizing mask with
  | nil => cases mask <;> rfl
  | cons a t ih =>
    have ha := hs a (List.mem_cons_self a t)
    have ht : ∀ ch ∈ t, toLowerRune ch.toUpper = ch ∧ toLowerRune ch = ch :=
      fun ch hch => hs ch (List.mem_cons_of_mem a hch)
    have hmap : t.map toLowerRune = t := by
      have := ih ht []
      cases t <;> simp [withCase] at this <;> simp [this]
    cases mask with
    | nil => simp [withCase, ha.2, hmap]
    | cons b bs =>
      cases b
      · simp [withCase, ha.2, ih ht bs]
      · simp [withCase, ha.1, ih ht bs]

/-- C6: every response of the four routes has status 200 or 404; a response
with status 200 uses the fragment template of its route (`items.html` for
home, search and channel, `main.html` for post) when the lower-cased
`X-Requested-With` value equals "xmlhttprequest", and `home.html` otherwise;
a response with status 404 uses `home.html`. Every letter-case spelling of
the word, `XMLHttpRequest` among them, is recognised, and an absent header is
not. The success branch is reached exactly when there is something to render:
the home route has status 200 exactly when its item fetch is not empty, the
post route exactly when the key has length at least 2, the search route
exactly when the query has length at least 2 and its item fetch is not empty,
and the channel route exactly when the key has length at least 2, its item
fetch is not empty and the channel lookup does not fail with "not found". -/
theorem template_choice (env : Env) (c : Context) (r : Route) :
    ((handler r env c).2.status = 200 ∨ (handler r env c).2.status = 404) ∧
    (handler r env c).2.name =
      (if (handler r env c).2.status = 200 ∧
          stringsToLower (HeaderGet c) = "xmlhttprequest" then fragment r else "home.html") ∧
    fragment Route.home = "items.html" ∧ fragment Route.search = "items.html" ∧
    fragment Route.channel = "items.html" ∧ fragment Route.post = "main.html" ∧
    (∀ mask, stringsToLower (String.mk (withCase mask "xmlhttprequest".data)) = "xmlhttprequest") ∧
    stringsToLower "XMLHttpRequest" = "xmlhttprequest" ∧
    (c.xRequestedWith = none → stringsToLower (HeaderGet c) ≠ "xmlhttprequest") ∧
    ((homeRoute env c).2.status = 200 ↔
      env.itemsAll ⟨Filter.all, some (Offset env c), some "-date", some pLimit⟩ ≠ []) ∧
    ((postRoute env c).2.status = 200 ↔ 2 ≤ len c.param) ∧
    ((searchRoute env c).2.status = 200 ↔
      2 ≤ len c.param ∧
      env.itemsAll ⟨Filter.text (sliceFrom1 c.param), some (Offset env c), none,
        some pLimit⟩ ≠ []) ∧
    ((channelRoute env c).2.status = 200 ↔
      2 ≤ len c.param ∧
      env.itemsAll ⟨Filter.channelkey (sliceFrom1 c.param), some (Offset env c), some "-date",
        some pLimit⟩ ≠ [] ∧
      env.channelOne (sliceFrom1 c.param) ≠ Except.error "not found") := by
  have hx : isXHR c = true ↔ stringsToLower (HeaderGet c) = "xmlhttprequest" := by
    simp [isXHR]
  have shape : ((handler r env c).2.status = 404 ∧ (handler r env c).2.name = "home.html") ∨
      ((handler r env c).2.status = 200 ∧
        (handler r env c).2.name = (if isXHR c = true then fragment r else "home.html")) := by
    cases r
    · simp only [handler, homeRoute]
      rcases hq : env.itemsAll ⟨Filter.all, some (Offset env c), some "-date", some pLimit⟩
        with _ | ⟨a, l⟩
      · simp [four04]
      · by_cases hb : isXHR c = true <;> simp [hb, fragment]
    · simp only [handler, postRoute]
      by_cases hl : len c.param < 2
      · simp [hl, four04]
      · by_cases hb : isXHR c = true <;> simp [hl, hb, fragment]
    · simp only [handler, searchRoute]
      by_cases hl : len c.param < 2
      · simp [hl, four04]
      · simp only [hl, if_false]
        rcases hq : env.itemsAll ⟨Filter.text (sliceFrom1 c.param), some (Offset env c), none,
            some pLimit⟩ with _ | ⟨a, l⟩
        · simp [four04]
        · by_cases hb : isXHR c = true <;> simp [hb, fragment]
    · simp only [handler, channelRoute]
      by_cases hl : len c.param < 2
      · simp [hl, four04]
      · simp only [hl, if_false]
        rcases hq : env.itemsAll ⟨Filter.channelkey (sliceFrom1 c.param), some (Offset env c),
            some "-date", some pLimit⟩ with _ | ⟨a, l⟩
        · simp [four04]
        · rcases hc : env.channelOne (sliceFrom1 c.param) with e | ch
          · by_cases he : e = "not found"
            · simp [he, four04]
            · by_cases hb : isXHR c = true <;> simp [he, hb, fragment]
          · by_cases hb : isXHR c = true <;> simp [hb, fragment]
  have main : ((handler r env c).2.status = 200 ∨ (handler r env c).2.status = 404) ∧
      (handler r env c).2.name =
        (if (handler r env c).2.status = 200 ∧
          stringsToLower (HeaderGet c) = "xmlhttprequest" then fragment r else "home.html") := by
    rcases shape with ⟨h1, h2⟩ | ⟨h1, h2⟩
    · simp [h1, h2]
    · simp [h1, h2, hx]
  have hhome : (homeRoute env c).2.status = 200 ↔
      env.itemsAll ⟨Filter.all, some (Offset env c), some "-date", some pLimit⟩ ≠ [] := by
    unfold homeRoute
    simp only []
    rcases hq : env.itemsAll ⟨Filter.all, some (Offset env c), some "-date", some pLimit⟩
      with _ | ⟨a, l⟩
    · simp [four04]
    · by_cases hb : isXHR c = true <;> simp [hb]
  have hpost : (postRoute env c).2.status = 200 ↔ 2 ≤ len c.param := by
    unfold postRoute
    simp only []
    by_cases hl : len c.param < 2
    · simp [hl, four04]
    · have hl2 : 2 ≤ len c.param := by omega
      by_cases hb : isXHR c = true <;> simp [hl, hl2, hb]
  have hsearch : (searchRoute env c).2.status = 200 ↔
      2 ≤ len c.param ∧
      env.itemsAll ⟨Filter.text (sliceFrom1 c.param), some (Offset env c), none,
        some pLimit⟩ ≠ [] := by
    unfold searchRoute
    simp only []
    by_cases hl : len c.param < 2
    · simp [hl, four04]
    · have hl2 : 2 ≤ len c.param := by omega
      simp only [hl, if_false]
      rcases hq : env.itemsAll ⟨Filter.text (sliceFrom1 c.param), some (Offset env c), none,
          some pLimit⟩ with _ | ⟨a, l⟩
      · simp [four04]
      · by_cases hb : isXHR c = true <;> simp [hl2, hb]
  have hchannel : (channelRoute env c).2.status = 200 ↔
      2 ≤ len c.param ∧
      env.itemsAll ⟨Filter.channelkey (sliceFrom1 c.param), some (Offset env c), some "-date",
        some pLimit⟩ ≠ [] ∧
      env.channelOne (sliceFrom1 c.param) ≠ Except.error "not found" := by
    unfold channelRoute
    simp only []
    by_cases hl : len c.param < 2
    · simp [hl, four04]
    · have hl2 : 2 ≤ len c.param := by omega
      simp only [hl, if_false]
      rcases hq : env.itemsAll ⟨Filter.channelkey (sliceFrom1 c.param), some (Offset env c),
          some "-date", some pLimit⟩ with _ | ⟨a, l⟩
      · simp [four04]
      · rcases hc : env.channelOne (sliceFrom1 c.param) with e | ch
        · by_cases he : e = "not found"
          · simp [he, four04]
          · by_cases hb : isXHR c = true <;> simp [hl2, he, hb]
        · by_cases hb : isXHR c = true <;> simp [hl2, hb]
  refine ⟨main.1, main.2, rfl, rfl, rfl, rfl, ?_, by decide, ?_, hhome, hpost, hsearch,
    hchannel⟩
  · intro mask
    unfold stringsToLower
    rw [toLower_withCase "xmlhttprequest".data (by decide) mask]
  · intro hnone
    simp only [HeaderGet, hnone, Option.getD_none]
    decide

theorem template_choice_witness :
    (homeRoute sampleEnv ⟨"", none, some "XMLHttpRequest"⟩).2.status = 200 ∧
    (handler Route.home sampleEnv ⟨"", none, some "XMLHttpRequest"⟩).2.name = "items.html" ∧
    (homeRoute sampleEnv ⟨"", none, none⟩).2.status = 200 ∧
    (handler Route.home sampleEnv ⟨"", none, none⟩).2.name = "home.html" ∧
    (searchRoute sampleEnv ⟨"/one", none, some "xmlHTTPrequest"⟩).2.status = 200 ∧
    (handler Route.search sampleEnv ⟨"/one", none, some "xmlHTTPrequest"⟩).2.name =
      "items.html" ∧
    (channelRoute sampleEnv ⟨"/go", none, some "XMLHttpRequest"⟩).2.status = 200 ∧
    (handler Route.channel sampleEnv ⟨"/go", none, some "XMLHttpRequest"⟩).2.name =
      "items.html" ∧
    (postRoute sampleEnv ⟨"/a", none, some "XMLHttpRequest"⟩).2.status = 200 ∧
    (handler Route.post sampleEnv ⟨"/a", none, some "XMLHttpRequest"⟩).2.name = "main.html" ∧
    (handler Route.search sampleEnv ⟨"/nothing", none, some "XMLHttpRequest"⟩).2.name =
      "home.html" ∧
    stringsToLower (HeaderGet ⟨"/go", none, none⟩) ≠ "xmlhttprequest" :=
  ⟨(template_choice sampleEnv ⟨"", none, some "XMLHttpRequest"⟩
      Route.home).2.2.2.2.2.2.2.2.2.1.mpr (by decide),
   (template_choice sampleEnv ⟨"", none, some "XMLHttpRequest"⟩ Route.home).2.1.trans
      (by decide),
   (template_choice sampleEnv ⟨"", none, none⟩ Route.home).2.2.2.2.2.2.2.2.2.1.mpr (by decide),
   (template_choice sampleEnv ⟨"", none, none⟩ Route.home).2.1.trans (by decide),
   (template_choice sampleEnv ⟨"/one", none, some "xmlHTTPrequest"⟩
      Route.search).2.2.2.2.2.2.2.2.2.2.2.1.mpr ⟨by decide, by decide⟩,
   (template_choice sampleEnv ⟨"/one", none, some "xmlHTTPrequest"⟩ Route.search).2.1.trans
      (by decide),
   (template_choice sampleEnv ⟨"/go", none, some "XMLHttpRequest"⟩
      Route.channel).2.2.2.2.2.2.2.2.2.2.2.2.mpr
      ⟨by decide, by decide, fun h => Except.noConfusion h⟩,
   (template_choice sampleEnv ⟨"/go", none, some "XMLHttpRequest"⟩ Route.channel).2.1.trans
      (by decide),
   (template_choice sampleEnv ⟨"/a", none, some "XMLHttpRequest"⟩
      Route.post).2.2.2.2.2.2.2.2.2.2.1.mpr (by decide),
   (template_choice sampleEnv ⟨"/a", none, some "XMLHttpRequest"⟩ Route.post).2.1.trans
      (by decide),
   (template_choice sampleEnv ⟨"/nothing", none, some "XMLHttpRequest"⟩ Route.search).2.1.trans
      (by decide),
   (template_choice sampleEnv ⟨"/go", none, none⟩ Route.channel).2.2.2.2.2.2.2.2.1 rfl⟩

/-! ## Page size -/

/-- C9: if the store returns at most `limit` records for a query, then for
every route, page parameter, key and query the item list handed to the
template has at most 10 elements, and every item list query that the handler
issues carries the limit `pLimit = 10`. -/
theorem items_bounded (env : Env) (c : Context) (r : Route)
    (hstore : ∀ q n, q.limit = some n → 0 ≤ n → ((env.itemsAll q).length : Int) ≤ n) :
    (∀ l, (handler r env c).2.obj.items = some l → l.length ≤ 10) ∧
    (∀ q, StoreOp.itemsAll q ∈ (handler r env c).1 → q.limit = some pLimit) ∧
    pLimit = 10 := by
  have bound : ∀ f s o, (env.itemsAll ⟨f, s, o, some pLimit⟩).length ≤ 10 := by
    intro f s o
    have := hstore ⟨f, s, o, some pLimit⟩ pLimit rfl (by decide)
    generalize (env.itemsAll ⟨f, s, o, some pLimit⟩).length = L at this ⊢
    unfold pLimit at this
    omega
  refine ⟨?_, ?_, rfl⟩
  · intro l
    cases r
    · simp only [handler, homeRoute]
      have hb := bound Filter.all (some (Offset env c)) (some "-date")
      rcases hq : env.itemsAll ⟨Filter.all, some (Offset env c), some "-date", some pLimit⟩
        with _ | ⟨a, t⟩
      · simp [four04]
      · rw [hq] at hb
        by_cases hx : isXHR c = true <;> simp [hx] <;> rintro rfl <;> simpa using hb
    · simp only [handler, postRoute]
      have hb := bound Filter.all none (some "-date")
      by_cases hl : len c.param < 2
      · simp [hl, four04]
      · by_cases hx : isXHR c = true <;> simp [hl, hx] <;> rintro rfl <;> simpa using hb
    · simp only [handler, searchRoute]
      have hb := bound (Filter.text (sliceFrom1 c.param)) (some (Offset env c)) none
      by_cases hl : len c.param < 2
      · simp [hl, four04]
      · simp only [hl, if_false]
        rcases hq : env.itemsAll ⟨Filter.text (sliceFrom1 c.param), some (Offset env c), none,
            some pLimit⟩ with _ | ⟨a, t⟩
        · simp [four04]
        · rw [hq] at hb
          by_cases hx : isXHR c = true <;> simp [hx] <;> rintro rfl <;> simpa using hb
    · simp only [handler, channelRoute]
      have hb := bound (Filter.channelkey (sliceFrom1 c.param)) (some (Offset env c))
        (some "-date")
      by_cases hl : len c.param < 2
      · simp [hl, four04]
      · simp only [hl, if_false]
        rcases hq : env.itemsAll ⟨Filter.channelkey (sliceFrom1 c.param), some (Offset env c),
            some "-date", some pLimit⟩ with _ | ⟨a, t⟩
        · simp [four04]
        · rw [hq] at hb
          rcases hc : env.channelOne (sliceFrom1 c.param) with e | ch
          · by_cases he : e = "not found"
            · simp [he, four04]
            · by_cases hx : isXHR c = true <;> simp [he, hx] <;> rintro rfl <;> simpa using hb
          · by_cases hx : isXHR c = true <;> simp [hx] <;> rintro rfl <;> simpa using hb
  · intro q
    cases r
    · simp only [handler, homeRoute]
      rcases hq : env.itemsAll ⟨Filter.all, some (Offset env c), some "-date", some pLimit⟩
        with _ | ⟨a, t⟩
      · simp only [List.mem_cons, List.mem_singleton, List.not_mem_nil, or_false]
        rintro (h | h) <;> cases h
        rfl
      · by_cases hx : isXHR c = true <;> simp [hx] <;> rintro rfl <;> rfl
    · simp only [handler, postRoute]
      by_cases hl : len c.param < 2
      · simp [hl]
      · by_cases hx : isXHR c = true <;> simp [hl, hx] <;> rintro rfl <;> rfl
    · simp only [handler, searchRoute]
      by_cases hl : len c.param < 2
      · simp [hl]
      · simp only [hl, if_false]
        rcases hq : env.itemsAll ⟨Filter.text (sliceFrom1 c.param), some (Offset env c), none,
            some pLimit⟩ with _ | ⟨a, t⟩
        · simp only [List.mem_cons, List.mem_singleton, List.not_mem_nil, or_false]
          rintro (h | h) <;> cases h
          rfl
        · by_cases hx : isXHR c = true <;> simp [hx] <;> rintro rfl <;> rfl
    · simp only [handler, channelRoute]
      by_cases hl : len c.param < 2
      · simp [hl]
      · simp only [hl, if_false]
        rcases hq : env.itemsAll ⟨Filter.channelkey (sliceFrom1 c.param), some (Offset env c),
            some "-date", some pLimit⟩ with _ | ⟨a, t⟩
        · simp only [List.mem_cons, List.mem_singleton, List.not_mem_nil, or_false]
          rintro h
          cases h
          rfl
        · rcases hc : env.channelOne (sliceFrom1 c.param) with e | ch
          · by_cases he : e = "not found"
            · simp [he]
              rintro rfl
              rfl
            · by_cases hx : isXHR c = true <;> simp [he, hx] <;> rintro rfl <;> rfl
          · by_cases hx : isXHR c = true <;> simp [hx] <;> rintro rfl <;> rfl

theorem items_bounded_witness :
    (∀ l, (handler Route.home sampleEnv ⟨"", some "2", none⟩).2.obj.items = some l →
      l.length ≤ 10) ∧
    (∀ q, StoreOp.itemsAll q ∈ (handler Route.home sampleEnv ⟨"", some "2", none⟩).1 →
      q.limit = some pLimit) ∧
    pLimit = 10 :=
  items_bounded sampleEnv ⟨"", some "2", none⟩ Route.home (by
    intro q n hq hn
    have hpage : ∀ l : List Itm, ((page q l).length : Int) ≤ n := by
      intro l
      simp only [page, hq, List.length_take]
      omega
    show ((page q _).length : Int) ≤ n
    exact hpage _)

/-! ## Single post -/

/-- C10: for every key parameter of length at least 2, `postRoute` answers
status 200, whatever the store returns for the companion list and for the
key; when no item matches the key the page carries the zero post and an empty
title. -/
theorem postRoute_always_ok (env : Env) (c : Context) (h : 2 ≤ len c.param) :
    (postRoute env c).2.status = 200 ∧
    (env.itemsOne ⟨Filter.key (sliceFrom1 c.param), none, some "-date", none⟩ = none →
      (postRoute env c).2.obj.post = some Itm.zero ∧
      (postRoute env c).2.obj.title = some "" ∧
      (postRoute env c).2.obj.message = none) := by
  have h2 : ¬ len c.param < 2 := by omega
  unfold postRoute
  simp only [h2, if_false]
  by_cases hx : isXHR c = true
  · simp only [hx, if_true, true_and]
    intro hnone
    simp [hnone, Itm.zero]
  · have hf : isXHR c = false := by simpa using hx
    refine ⟨by simp [hf], ?_⟩
    intro hnone
    simp [hf, hnone, Itm.zero]

theorem postRoute_always_ok_witness :
    2 ≤ len "/nosuchpost" ∧
    (postRoute sampleEnv ⟨"/nosuchpost", none, none⟩).2.status = 200 ∧
    (postRoute sampleEnv ⟨"/nosuchpost", none, none⟩).2.obj.post = some Itm.zero ∧
    (postRoute sampleEnv ⟨"/nosuchpost", none, none⟩).2.obj.title = some "" ∧
    (postRoute sampleEnv ⟨"/nosuchpost", none, none⟩).2.obj.message = none :=
  ⟨by decide, (postRoute_always_ok sampleEnv ⟨"/nosuchpost", none, none⟩ (by decide)).1,
   (postRoute_always_ok sampleEnv ⟨"/nosuchpost", none, none⟩ (by decide)).2 (by decide)⟩

/-! ## Lemmas on escaping and unescaping -/

theorem unescapeEntity_amp (T : Entities) (rest : List Char) :
    unescapeEntity T ('&' :: 'a' :: 'm' :: 'p' :: ';' :: rest) = (['&'], 5) := by
  simp [unescapeEntity, scanName, isAlnum, entityOf, nul]

theorem unescapeEntity_lt (T : Entities) (rest : List Char) :
    unescapeEntity T ('&' :: 'l' :: 't' :: ';' :: rest) = (['<'], 4) := by
  simp [unescapeEntity, scanName, isAlnum, entityOf, nul]

theorem unescapeEntity_gt (T : Entities) (rest : List Char) :
    unescapeEntity T ('&' :: 'g' :: 't' :: ';' :: rest) = (['>'], 4) := by
  simp [unescapeEntity, scanName, isAlnum, entityOf, nul]

theorem unescapeEntity_quot (T : Entities) (rest : List Char) :
    unescapeEntity T ('&' :: '#' :: '3' :: '4' :: ';' :: rest) = ([quot], 5) := by
  simp [unescapeEntity, scanNumber, digitOf, nul]
  decide

theorem unescapeEntity_apos (T : Entities) (rest : List Char) :
    unescapeEntity T ('&' :: '#' :: '3' :: '9' :: ';' :: rest) = ([apos], 5) := by
  simp [unescapeEntity, scanNumber, digitOf, nul]
  decide

/-- One step of the unescape loop on an escaped character gives the
character back (U+FFFD for NUL). -/
theorem unescapeLoop_escapeChar (T : Entities) (c : Char) (rest : List Char) (fuel : Nat) :
    unescapeLoop T (fuel + 1) (escapeChar c ++ rest) = fixNul c :: unescapeLoop T fuel rest := by
  unfold escapeChar fixNul
  by_cases h0 : c = nul
  · have hne : ¬ runeError = '&' := by decide
    simp [h0, unescapeLoop, hne]
  · by_cases h1 : c = quot
    · simp [h0, h1, unescapeLoop, unescapeEntity_quot]
      decide
    · by_cases h2 : c = apos
      · simp [h0, h1, h2, unescapeLoop, unescapeEntity_apos]
        decide
      · by_cases h3 : c = '&'
        · simp [h0, h1, h2, h3, unescapeLoop, unescapeEntity_amp]
          decide
        · by_cases h4 : c = '<'
          · simp [h0, h1, h2, h3, h4, unescapeLoop, unescapeEntity_lt]
            decide
          · by_cases h5 : c = '>'
            · simp [h0, h1, h2, h3, h4, h5, unescapeLoop, unescapeEntity_gt]
              decide
            · simp [h0, h1, h2, h3, h4, h5, unescapeLoop]

theorem escapeChar_length_pos (c : Char) : 1 ≤ (escapeChar c).length := by
  unfold escapeChar
  split_ifs <;> simp

/-- Unescaping the escaped text gives the text back, NUL characters apart,
for every fuel that covers the escaped text. -/
theorem unescapeLoop_htmlEscape (T : Entities) (s : List Char) :
    ∀ fuel, (htmlEscape s).length ≤ fuel → unescapeLoop T fuel (htmlEscape s) = s.map fixNul := by
  induction s with
  | nil =>
    intro fuel _
    cases fuel <;> rfl
  | cons c cs ih =>
    intro fuel hfuel
    simp only [htmlEscape, List.length_append] at hfuel
    have hpos := escapeChar_length_pos c
    obtain ⟨f, rfl⟩ : ∃ f, fuel = f + 1 := ⟨fuel - 1, by omega⟩
    simp only [htmlEscape, List.map_cons]
    rw [unescapeLoop_escapeChar, ih f (by omega)]

theorem unescapeChars_htmlEscape (T : Entities) (s : List Char) :
    unescapeChars T (htmlEscape s) = s.map fixNul :=
  unescapeLoop_htmlEscape T s _ (Nat.le_refl _)

theorem map_fixNul_of_not_mem (s : List Char) (h : nul ∉ s) : s.map fixNul = s := by
  induction s with
  | nil => rfl
  | cons c cs ih =>
    have hc : c ≠ nul := fun e => h (e ▸ List.mem_cons_self c cs)
    have hcs : nul ∉ cs := fun e => h (List.mem_cons_of_mem c e)
    simp [fixNul, hc, ih hcs]

theorem ampFree_cons (c : Char) (t : List Char) (h : c ≠ '&') :
    ampFree (c :: t) = 1 + ampFree t := by
  simp [ampFree, List.takeWhile_cons, h]
  omega

theorem ampFree_append_amp (p rest : List Char) : ampFree (p ++ '&' :: rest) ≤ p.length := by
  induction p with
  | nil => simp [ampFree]
  | cons c p ih =>
    by_cases h : c = '&'
    · simp [ampFree, List.takeWhile_cons, h]
    · have := ampFree_cons c (p ++ '&' :: rest) h
      simp only [List.cons_append, List.length_cons]
      omega

theorem scanName_ge (cs : List Char) : ∀ i, i ≤ scanName cs i := by
  induction cs with
  | nil => intro i; simp [scanName]
  | cons c cs ih =>
    intro i
    unfold scanName
    split_ifs
    · exact Nat.le_trans (Nat.le_succ i) (ih (i + 1))
    · omega
    · omega

theorem scanName_le (cs : List Char) : ∀ i, scanName cs i ≤ i + ampFree cs := by
  induction cs with
  | nil => intro i; simp [scanName]
  | cons c cs ih =>
    intro i
    by_cases hc : c = '&'
    · subst hc
      have : isAlnum '&' = false := by decide
      simp [scanName, this]
    · rw [ampFree_cons c cs hc]
      unfold scanName
      split_ifs
      · have := ih (i + 1)
        omega
      · omega
      · omega

theorem scanNumber_le (hex : Bool) (cs : List Char) :
    ∀ x i, (scanNumber hex cs x i).2 ≤ i + ampFree cs := by
  induction cs with
  | nil => intro x i; simp [scanNumber]
  | cons c cs ih =>
    intro x i
    by_cases hc : c = '&'
    · subst hc
      have : digitOf hex '&' = none := by cases hex <;> decide
      simp [scanNumber, this]
    · rw [ampFree_cons c cs hc]
      unfold scanNumber
      cases hd : digitOf hex c with
      | some d =>
        simp only []
        have := ih (wrapRune ((if hex = true then 16 else 10) * x + d)) (i + 1)
        omega
      | none =>
        simp only []
        split_ifs <;> simp

theorem prefixSearch_le (T : Entities) (name : List Char) :
    ∀ n x j, prefixSearch T name n = some (x, j) → j ≤ n := by
  intro n
  induction n with
  | zero => intro x j h; simp [prefixSearch] at h
  | succ n ih =>
    intro x j h
    unfold prefixSearch at h
    split_ifs at h
    · simp only [Option.some.injEq, Prod.mk.injEq] at h
      omega
    · have := ih x j h
      omega

/-- A reference consumes its `&` and never reaches the next `&`. -/
theorem unescapeEntity_consumed (T : Entities) (t : List Char) :
    1 ≤ (unescapeEntity T ('&' :: t)).2 ∧ (unescapeEntity T ('&' :: t)).2 ≤ 1 + ampFree t := by
  unfold unescapeEntity
  by_cases h1 : ('&' :: t).length ≤ 1
  · simp only [h1, if_true]
    omega
  · simp only [h1, if_false]
    by_cases h2 : ('&' :: t).getD 1 nul = '#'
    · simp only [h2, if_true]
      by_cases h3 : ('&' :: t).length ≤ 3
      · simp only [h3, if_true]
        omega
      · simp only [h3, if_false]
        obtain ⟨c1, c2, c3, t3, rfl⟩ : ∃ c1 c2 c3 t3, t = c1 :: c2 :: c3 :: t3 := by
          match t, h3 with
          | c1 :: c2 :: c3 :: t3, _ => exact ⟨c1, c2, c3, t3, rfl⟩
          | [_, _], h => simp at h
          | [_], h => simp at h
          | [], h => simp at h
        simp only [List.getD_cons_succ, List.getD_cons_zero] at h2 ⊢
        subst h2
        have e1 : ampFree ('#' :: c2 :: c3 :: t3) = 1 + ampFree (c2 :: c3 :: t3) :=
          ampFree_cons _ _ (by decide)
        by_cases hx : c2 = 'x' ∨ c2 = 'X'
        · have e2 : ampFree (c2 :: c3 :: t3) = 1 + ampFree (c3 :: t3) :=
            ampFree_cons _ _ (by rcases hx with h | h <;> subst h <;> decide)
          have hs := scanNumber_le true (c3 :: t3) 0 3
          simp only [hx, decide_True, if_true, List.drop_succ_cons, List.drop_zero]
          by_cases h4 : (scanNumber true (c3 :: t3) 0 3).2 ≤ 3
          · simp only [h4, if_true]
            omega
          · simp only [h4, if_false]
            omega
        · have hs := scanNumber_le false (c2 :: c3 :: t3) 0 2
          simp only [hx, decide_False, Bool.false_eq_true, ↓reduceIte, List.drop_succ_cons,
            List.drop_zero]
          by_cases h4 : (scanNumber false (c2 :: c3 :: t3) 0 2).2 ≤ 3
          · simp only [h4, if_true]
            omega
          · simp only [h4, if_false]
            omega
    · simp only [h2, if_false]
      have hge := scanName_ge (List.drop 1 ('&' :: t)) 1
      have hle := scanName_le (List.drop 1 ('&' :: t)) 1
      simp only [List.drop_succ_cons, List.drop_zero] at hge hle ⊢
      split_ifs with hA hB hC
      · exact ⟨hge, hle⟩
      · exact ⟨hge, hle⟩
      · exact ⟨hge, hle⟩
      · split
        · rename_i x j hps
          have hj := prefixSearch_le T _ _ x j hps
          simp only []
          refine ⟨by omega, ?_⟩
          have hlen : (List.drop 1 (List.take (scanName t 1) ('&' :: t))).length
              ≤ scanName t 1 - 1 := by
            simp only [List.length_drop, List.length_take]
            omega
          have hpos : 0 < (List.drop 1 (List.take (scanName t 1) ('&' :: t))).length :=
            List.length_pos.mpr hA
          omega
        · exact ⟨hge, hle⟩

theorem unescapeLoop_cons_amp (T : Entities) (f : Nat) (cs : List Char) :
    unescapeLoop T (f + 1) ('&' :: cs) =
      (unescapeEntity T ('&' :: cs)).1 ++
        unescapeLoop T f (('&' :: cs).drop (unescapeEntity T ('&' :: cs)).2) := by
  simp [unescapeLoop]

theorem unescapeLoop_cons_other (T : Entities) (f : Nat) (c : Char) (cs : List Char)
    (h : c ≠ '&') : unescapeLoop T (f + 1) (c :: cs) = c :: unescapeLoop T f cs := by
  simp [unescapeLoop, h]

/-- The fuel of the unescape loop is never exhausted: every fuel that covers
the text gives the same result. -/
theorem unescapeLoop_fuel (T : Entities) :
    ∀ f1 f2 s, s.length ≤ f1 → s.length ≤ f2 → unescapeLoop T f1 s = unescapeLoop T f2 s := by
  intro f1
  induction f1 with
  | zero =>
    intro f2 s h1 _
    have hs : s = [] := List.length_eq_zero.mp (Nat.le_zero.mp h1)
    subst hs
    cases f2 <;> rfl
  | succ f ih =>
    intro f2 s h1 h2
    cases s with
    | nil => cases f2 <;> rfl
    | cons c cs =>
      obtain ⟨g, rfl⟩ : ∃ g, f2 = g + 1 := ⟨f2 - 1, by simp at h2; omega⟩
      simp only [List.length_cons] at h1 h2
      by_cases hc : c = '&'
      · subst hc
        have hb := (unescapeEntity_consumed T cs).1
        have hlen : (List.drop (unescapeEntity T ('&' :: cs)).2 ('&' :: cs)).length ≤ cs.length := by
          simp only [List.length_drop, List.length_cons]
          omega
        rw [unescapeLoop_cons_amp, unescapeLoop_cons_amp,
          ih g _ (by omega) (by omega)]
      · rw [unescapeLoop_cons_other T f c cs hc, unescapeLoop_cons_other T g c cs hc,
          ih g cs (by omega) (by omega)]

/-- The loop restarts afresh at every `&`: what precedes an `&` is decoded
on its own. -/
theorem unescapeLoop_split (T : Entities) :
    ∀ fuel pre rest, (pre ++ '&' :: rest).length ≤ fuel →
      ∃ out fuel2, ('&' :: rest).length ≤ fuel2 ∧
        unescapeLoop T fuel (pre ++ '&' :: rest) = out ++ unescapeLoop T fuel2 ('&' :: rest) := by
  intro fuel
  induction fuel with
  | zero =>
    intro pre rest h
    simp at h
  | succ f ih =>
    intro pre rest h
    cases pre with
    | nil => exact ⟨[], f + 1, by simpa using h, rfl⟩
    | cons c p =>
      rw [List.cons_append] at h ⊢
      by_cases hc : c = '&'
      · subst hc
        have hb := unescapeEntity_consumed T (p ++ '&' :: rest)
        have ha := ampFree_append_amp p rest
        obtain ⟨k, hk⟩ : ∃ k, (unescapeEntity T ('&' :: (p ++ '&' :: rest))).2 = k + 1 :=
          ⟨(unescapeEntity T ('&' :: (p ++ '&' :: rest))).2 - 1, by omega⟩
        have hkp : k ≤ p.length := by omega
        have hdrop : List.drop (k + 1) ('&' :: (p ++ '&' :: rest)) =
            List.drop k p ++ '&' :: rest := by
          rw [List.drop_succ_cons]
          exact List.drop_append_of_le_length hkp
        have hlen : (List.drop k p ++ '&' :: rest).length ≤ f := by
          simp only [List.length_append, List.length_drop, List.length_cons] at h ⊢
          omega
        obtain ⟨out, fuel2, h2, e⟩ := ih _ rest hlen
        refine ⟨(unescapeEntity T ('&' :: (p ++ '&' :: rest))).1 ++ out, fuel2, h2, ?_⟩
        rw [unescapeLoop_cons_amp, hk, hdrop, e, List.append_assoc]
      · have hlen : (p ++ '&' :: rest).length ≤ f := by
          simp only [List.length_cons] at h
          omega
        obtain ⟨out, fuel2, h2, e⟩ := ih p rest hlen
        refine ⟨c :: out, fuel2, h2, ?_⟩
        rw [unescapeLoop_cons_other T f c _ hc, e, List.cons_append]

theorem unescapeLoop_lt_b_gt (T : Entities) (post : List Char) (fuel : Nat) :
    unescapeLoop T (fuel + 3) ('&' :: 'l' :: 't' :: ';' :: 'b' :: '&' :: 'g' :: 't' :: ';' :: post)
      = '<' :: 'b' :: '>' :: unescapeLoop T fuel post := by
  have hb : ¬ 'b' = '&' := by decide
  simp [unescapeLoop, unescapeEntity_lt, unescapeEntity_gt, hb]

theorem hasInfix_iff (sub s : List Char) : hasInfix sub s = true ↔ sub <:+: s := by
  induction s with
  | nil => simp [hasInfix, List.isEmpty_iff]
  | cons c cs ih =>
    simp only [hasInfix, Bool.or_eq_true, ih, List.isPrefixOf_iff_prefix, List.infix_cons_iff]

/-- Decoding a text that contains `&lt;b&gt;` gives a text that contains
`<b>`. -/
theorem unescapeChars_lt_b_gt (T : Entities) (s : List Char)
    (h : ['&', 'l', 't', ';', 'b', '&', 'g', 't', ';'] <:+: s) :
    ['<', 'b', '>'] <:+: unescapeChars T s := by
  obtain ⟨pre, post, rfl⟩ := h
  unfold unescapeChars
  have e : pre ++ ['&', 'l', 't', ';', 'b', '&', 'g', 't', ';'] ++ post =
      pre ++ '&' :: ('l' :: 't' :: ';' :: 'b' :: '&' :: 'g' :: 't' :: ';' :: post) := by simp
  rw [e]
  obtain ⟨out, fuel2, h2, e2⟩ := unescapeLoop_split T _ pre
    ('l' :: 't' :: ';' :: 'b' :: '&' :: 'g' :: 't' :: ';' :: post) (Nat.le_refl _)
  rw [e2]
  obtain ⟨g, rfl⟩ : ∃ g, fuel2 = g + 3 := ⟨fuel2 - 3, by simp at h2; omega⟩
  rw [unescapeLoop_lt_b_gt]
  exact ⟨out, unescapeLoop T g post, by simp⟩

/-! ## ProperHtml -/

theorem ProperHtml_no_marker (T : Entities) (text : String)
    (h1 : stringsContains text "content:encoded>" = false)
    (h2 : stringsContains text "content/:encoded>" = false) :
    ProperHtml T text = String.mk (text.data.map fixNul) := by
  unfold ProperHtml
  simp only [h1, h2, Bool.or_self, Bool.false_eq_true, if_false]
  unfold UnescapeString HTMLEscapeString
  rw [unescapeChars_htmlEscape]

theorem ProperHtml_of_marker (T : Entities) (text : String)
    (hm : stringsContains text "content:encoded>" = true ∨
      stringsContains text "content/:encoded>" = true) :
    ProperHtml T text = String.mk ((UnescapeString T text).data.map fixNul) := by
  have hor : (stringsContains text "content:encoded>" ||
      stringsContains text "content/:encoded>") = true := by
    rcases hm with h | h <;> simp [h]
  unfold ProperHtml
  simp only [hor, if_true]
  unfold UnescapeString HTMLEscapeString
  rw [unescapeChars_htmlEscape]

/-- C7, as stated, fails: the text made of `a`, a NUL character and `b`
contains neither marker, and `ProperHtml` returns it with U+FFFD in place of
the NUL character, because `HTMLEscapeString` replaces NUL by U+FFFD. -/
theorem ProperHtml_nul_counterexample :
    stringsContains "a\x00b" "content:encoded>" = false ∧
    stringsContains "a\x00b" "content/:encoded>" = false ∧
    ProperHtml sampleEntities "a\x00b" = "a\uFFFDb" ∧
    ProperHtml sampleEntities "a\x00b" ≠ "a\x00b" := by
  decide

/-- C7 (amended): for every text that contains neither marker, `ProperHtml`
returns the text with each NUL character replaced by U+FFFD and nothing else
changed; so a text without NUL character is returned unchanged, tags, scripts
and existing entities included. -/
theorem ProperHtml_unchanged (T : Entities) (text : String)
    (h1 : stringsContains text "content:encoded>" = false)
    (h2 : stringsContains text "content/:encoded>" = false) :
    ProperHtml T text = String.mk (text.data.map fixNul) ∧
    (nul ∉ text.data → ProperHtml T text = text) := by
  refine ⟨ProperHtml_no_marker T text h1 h2, fun h0 => ?_⟩
  rw [ProperHtml_no_marker T text h1 h2, map_fixNul_of_not_mem _ h0]

theorem ProperHtml_unchanged_witness :
    ProperHtml sampleEntities "<script>alert('x')</script> &amp; &lt;b&gt; &nbsp; <p>" =
      "<script>alert('x')</script> &amp; &lt;b&gt; &nbsp; <p>" :=
  (ProperHtml_unchanged sampleEntities "<script>alert('x')</script> &amp; &lt;b&gt; &nbsp; <p>"
    (by decide) (by decide)).2 (by decide)

/-- C8, as stated, fails: the text `content:encoded>` followed by a NUL
character contains the marker, its single unescaping is the text itself, and
`ProperHtml` returns it with U+FFFD in place of the NUL character. -/
theorem marker_nul_counterexample :
    stringsContains "content:encoded>\x00" "content:encoded>" = true ∧
    UnescapeString sampleEntities "content:encoded>\x00" = "content:encoded>\x00" ∧
    ProperHtml sampleEntities "content:encoded>\x00" = "content:encoded>\uFFFD" ∧
    ProperHtml sampleEntities "content:encoded>\x00" ≠
      UnescapeString sampleEntities "content:encoded>\x00" := by
  decide

/-- C8 (amended): for every text that contains the marker `content:encoded>`
or `content/:encoded>`, `ProperHtml` returns the text unescaped exactly once,
with each NUL character of that result replaced by U+FFFD; so when the
unescaped text has no NUL character the result is exactly the text unescaped
once. When the text also contains `&lt;b&gt;`, the result contains `<b>`. -/
theorem ProperHtml_marker (T : Entities) (text : String)
    (hm : stringsContains text "content:encoded>" = true ∨
      stringsContains text "content/:encoded>" = true) :
    ProperHtml T text = String.mk ((UnescapeString T text).data.map fixNul) ∧
    (nul ∉ (UnescapeString T text).data → ProperHtml T text = UnescapeString T text) ∧
    (stringsContains text "&lt;b&gt;" = true →
      stringsContains (ProperHtml T text) "<b>" = true) := by
  refine ⟨ProperHtml_of_marker T text hm, fun h0 => ?_, fun hb => ?_⟩
  · rw [ProperHtml_of_marker T text hm, map_fixNul_of_not_mem _ h0]
  · rw [ProperHtml_of_marker T text hm]
    unfold stringsContains at hb ⊢
    rw [hasInfix_iff] at hb ⊢
    have h3 := unescapeChars_lt_b_gt T text.data hb
    have h4 := List.IsInfix.map fixNul h3
    have e : List.map fixNul ['<', 'b', '>'] = ['<', 'b', '>'] := by decide
    rw [e] at h4
    exact h4

theorem ProperHtml_marker_witness :
    ProperHtml sampleEntities "<content:encoded>&lt;b&gt;x &amp;amp; y&lt;/b&gt;" =
      "<content:encoded><b>x &amp; y</b>" ∧
    stringsContains
      (ProperHtml sampleEntities "<content:encoded>&lt;b&gt;x &amp;amp; y&lt;/b&gt;") "<b>" = true :=
  ⟨((ProperHtml_marker sampleEntities "<content:encoded>&lt;b&gt;x &amp;amp; y&lt;/b&gt;"
      (Or.inl (by decide))).2.1 (by decide)).trans (by decide),
   (ProperHtml_marker sampleEntities "<content:encoded>&lt;b&gt;x &amp;amp; y&lt;/b&gt;"
      (Or.inl (by decide))).2.2 (by decide)⟩

end Dagobah
